import Mathlib

/-!
Shallow embedding of the dbt-goverage coverage tool (src/main.go).

The Go program manipulates dynamically-typed JSON values
(map[string]interface{}); we embed those as the inductive type `JSON`,
with Go maps represented as association lists whose lookup matches the
first occurrence of a key.  Go map iteration order is nondeterministic;
the embedding iterates association lists in list order, a deterministic
refinement that is irrelevant to the properties proved here (all the
aggregations are per-key or commutative).

Go functions returning `(T, error)` are embedded as `GoResult T`:
`.ok` for a nil error, `.err msg` for a non-nil error (Go additionally
returns the zero value of `T` alongside the error, e.g. `Catalog{}`;
the embedding drops that unused zero value), and `.panicked` for an
uncaught runtime panic from a failed type assertion.

Go float64 arithmetic appears only as `float64(covered)/float64(total)`
on small non-negative integers.  It is embedded as `GoFloat`: an exact
rational for finite results, plus NaN (0/0) and +Inf (x/0, x > 0).
The properties at issue (being NaN, being zero, lying in [0, 1]) are
invariant under the rounding that real float64 division would add.
-/

inductive JSON where
  | null
  | bool (b : Bool)
  | num (n : Int)
  | str (s : String)
  | arr (elems : List JSON)
  | obj (fields : List (String × JSON))
deriving Repr

/-- A JSON object body: Go map[string]interface\x7b\x7d as an association list. -/
abbrev JObj := List (String × JSON)

/-- Result of a Go call: nil-error value, non-nil error, or runtime panic. -/
inductive GoResult (α : Type) where
  | ok (val : α)
  | err (msg : String)
  | panicked
deriving Repr, DecidableEq

def GoResult.bind {α β : Type} : GoResult α → (α → GoResult β) → GoResult β
  | .ok a, f => f a
  | .err m, _ => .err m
  | .panicked, _ => .panicked

instance : Monad GoResult where
  pure := GoResult.ok
  bind := GoResult.bind

/-- First-occurrence lookup in a string-keyed association list,
the embedding of a Go map read `m[k]` (missing key gives `none` = nil). -/
def lookupKV {α : Type} : List (String × α) → String → Option α
  | [], _ => none
  | (k, v) :: rest, key => if k = key then some v else lookupKV rest key

/-- Go map write `m[k] = v`: replace the binding when the key is
present (a Go map holds at most one binding per key, and every map
this embedding builds starts empty and grows only through this
function, so the first binding is the only one), otherwise append a
new binding. -/
def insertKV {α : Type} : List (String × α) → String → α → List (String × α)
  | [], k, v => [(k, v)]
  | (a, b) :: rest, k, v =>
    if a = k then (k, v) :: rest else (a, b) :: insertKV rest k v

/-- Field read on a JSON object: `node["k"]`. -/
def jLookup (o : JObj) (k : String) : Option JSON := lookupKV o k

/-- Go type assertion `v.(string)` with the comma-ok form. -/
def asStr : Option JSON → Option String
  | some (.str s) => some s
  | _ => none

/-- Go type assertion `v.(map[string]interface\x7b\x7d)` with the comma-ok form. -/
def asObj : Option JSON → Option JObj
  | some (.obj o) => some o
  | _ => none

/-- Go type assertion `v.([]interface\x7b\x7d)` with the comma-ok form. -/
def asArr : Option JSON → Option (List JSON)
  | some (.arr a) => some a
  | _ => none

/-- Embedding of `strings.ToLower`, character by character.  The spec
fixes ASCII lowercasing as sufficient, which is what `Char.toLower`
performs. -/
def strToLower (s : String) : String := ⟨s.data.map Char.toLower⟩

/-- Embedding of `strings.HasPrefix(s, p)` (argument order here: p
first): on the character-list view of strings a leading substring is
exactly a list prefix. -/
def strHasPrefix (p s : String) : Bool := p.data.isPrefixOf s.data

/-- Embedding of `filepath.ToSlash`, parameterized by the host path separator
(`filepath.Separator`): the identity when the separator is already a
slash, otherwise every separator is rewritten to a slash. -/
def toSlash (sep : Char) (s : String) : String :=
  if sep = '/' then s else ⟨s.data.map (fun c => if c = sep then '/' else c)⟩

/-- Embedding of Go float64 values produced by integer division. -/
inductive GoFloat where
  | val (q : ℚ)
  | nan
  | inf
deriving Repr, DecidableEq

/-- Division `float64(a) / float64(b)` for non-negative integers a, b. -/
def goDivNat (a b : Nat) : GoFloat :=
  if b = 0 then (if a = 0 then .nan else .inf) else .val ((a : ℚ) / (b : ℚ))

-- --- The data model of main.go ---

structure Column where
  Name : String
  Doc : Bool
  Test : Bool
deriving Repr, DecidableEq

structure Table where
  UniqueID : String
  Name : String
  OriginalFilePath : String
  Columns : List (String × Column)
deriving Repr, DecidableEq

structure Catalog where
  Tables : List (String × Table)
deriving Repr, DecidableEq

/-- Manifest.Tests: map tableID → (map columnName → list of raw test nodes). -/
abbrev TestsIndex := List (String × List (String × List JSON))

structure Manifest where
  Sources : List (String × JObj)
  Models : List (String × JObj)
  Seeds : List (String × JObj)
  Snapshots : List (String × JObj)
  Tests : TestsIndex
deriving Repr

def emptyManifest : Manifest := ⟨[], [], [], [], []⟩

abbrev CoverageType := String

def CoverageTypeDoc : CoverageType := "doc"

def CoverageTypeTest : CoverageType := "test"

structure ColumnReport where
  Name : String
  Covered : Nat
  Total : Nat
  Coverage : GoFloat
deriving Repr, DecidableEq

structure TableReport where
  Name : String
  Covered : Nat
  Total : Nat
  Coverage : GoFloat
  Columns : List ColumnReport
deriving Repr, DecidableEq

structure JSONReport where
  CovType : String
  Covered : Nat
  Total : Nat
  Coverage : GoFloat
  Tables : List TableReport
deriving Repr, DecidableEq

-- --- main.go lines 101-118 ---

/-- main.go:101.  Panics when the column node has no string "name". -/
def NewColumnFromNode (node : JObj) : GoResult Column :=
  match asStr (jLookup node "name") with
  | some s => .ok ⟨strToLower s, false, false⟩
  | none => .panicked

/-- main.go:106. -/
def IsValidDoc : Option JSON → Bool
  | some (.str s) => s != ""
  | _ => false

/-- main.go:116. -/
def IsValidTest (tests : List JSON) : Bool :=
  tests.length > 0

-- --- main.go lines 185-206: Manifest.GetTable ---

/-- The candidate list built by GetTable (main.go:186-198): at most one
hit per partition, in the order Sources, Models, Seeds, Snapshots. -/
def getTableCandidates (m : Manifest) (tableID : String) : List JObj :=
  (match lookupKV m.Sources tableID with | some v => [v] | none => []) ++
  (match lookupKV m.Models tableID with | some v => [v] | none => []) ++
  (match lookupKV m.Seeds tableID with | some v => [v] | none => []) ++
  (match lookupKV m.Snapshots tableID with | some v => [v] | none => [])

/-- main.go:185.  Zero candidates: not-found error; more than one:
duplicate error; exactly one: that candidate. -/
def Manifest.GetTable (m : Manifest) (tableID : String) : GoResult JObj :=
  match getTableCandidates m tableID with
  | [] => .err ("table " ++ tableID ++ " non trouvée")
  | [c] => .ok c
  | _ :: _ :: _ => .err ("unique_id " ++ tableID ++ " en double")

-- --- main.go lines 120-151: NewTableFromNode ---

/-- The column-building loop of NewTableFromNode (main.go:130-137):
values that are not objects are skipped; each object value goes through
NewColumnFromNode (which panics on a missing string "name") and is
inserted keyed by its lowercased name. -/
def buildCols : List (String × JSON) → List (String × Column) →
    GoResult (List (String × Column))
  | [], acc => .ok acc
  | (_, v) :: rest, acc =>
    match v with
    | .obj colNode =>
      match NewColumnFromNode colNode with
      | .ok col => buildCols rest (insertKV acc col.Name col)
      | .err e => .err e
      | .panicked => .panicked
    | _ => buildCols rest acc

/-- main.go:120.  Note that a GetTable failure (not-found or duplicate)
is rewrapped as the "non trouvé dans le manifest" error, and that the
final read of the manifest table node name is an unchecked assertion. -/
def NewTableFromNode (node : JObj) (manifest : Manifest) : GoResult Table :=
  match asStr (jLookup node "unique_id") with
  | none => .err "unique_id absent ou invalide"
  | some uniqueID =>
    match manifest.GetTable uniqueID with
    | .err _ => .err ("unique_id " ++ uniqueID ++ " non trouvé dans le manifest")
    | .panicked => .panicked
    | .ok manifestTable =>
      (match asObj (jLookup node "columns") with
       | some columnsRaw => buildCols columnsRaw []
       | none => .ok []).bind fun cols =>
        let origPath := (asStr (jLookup manifestTable "original_file_path")).getD ""
        match asStr (jLookup manifestTable "name") with
        | some nm =>
          .ok { UniqueID := uniqueID, Name := strToLower nm,
                OriginalFilePath := origPath, Columns := cols }
        | none => .panicked

-- --- main.go lines 153-169: FilterTables ---

/-- main.go:153.  A table survives when its slash-normalized origin path
has some slash-normalized filter as a prefix (inner loop with break). -/
def Catalog.FilterTables (sep : Char) (c : Catalog)
    (modelPathFilter : List String) : Catalog :=
  ⟨c.Tables.filter (fun p =>
    modelPathFilter.any (fun filt =>
      strHasPrefix (toSlash sep filt) (toSlash sep p.2.OriginalFilePath)))⟩

-- --- main.go lines 171-183: CatalogFromNodes ---

/-- The loop of CatalogFromNodes (main.go:173-181): list elements that
are not objects are skipped; the first node whose construction fails
aborts the whole build. -/
def catalogGo (manifest : Manifest) :
    List JSON → List (String × Table) → GoResult Catalog
  | [], acc => .ok ⟨acc⟩
  | n :: rest, acc =>
    match n with
    | .obj node =>
      match NewTableFromNode node manifest with
      | .ok table => catalogGo manifest rest (insertKV acc table.UniqueID table)
      | .err e => .err e
      | .panicked => .panicked
    | _ => catalogGo manifest rest acc

/-- main.go:171.  On error Go returns `(Catalog{}, err)`; the `.err`
constructor stands for that pair, so no catalog value accompanies it. -/
def CatalogFromNodes (nodes : List JSON) (manifest : Manifest) :
    GoResult Catalog :=
  catalogGo manifest nodes []

-- --- main.go lines 304-323: normalizeTable ---

/-- The column-normalization loop of normalizeTable (main.go:307-313):
non-object values are skipped; an object value without a string "name"
panics; otherwise its name is lowercased both in the column object and
as the re-keying key. -/
def normalizeCols : List (String × JSON) → JObj → GoResult JObj
  | [], acc => .ok acc
  | (_, v) :: rest, acc =>
    match v with
    | .obj col =>
      match asStr (jLookup col "name") with
      | some s =>
        normalizeCols rest
          (insertKV acc (strToLower s) (JSON.obj (insertKV col "name" (JSON.str (strToLower s)))))
      | none => .panicked
    | _ => normalizeCols rest acc

/-- main.go:304.  Go mutates the node map in place; the embedding
returns the updated object. -/
def normalizeTable (sep : Char) (table : JObj) : GoResult JObj :=
  (match asObj (jLookup table "columns") with
   | some cols => (normalizeCols cols []).bind fun normCols =>
       .ok (insertKV table "columns" (JSON.obj normCols))
   | none => .ok table).bind fun t1 =>
    let t2 := match asStr (jLookup t1 "original_file_path") with
      | some p => insertKV t1 "original_file_path" (JSON.str (toSlash sep p))
      | none => t1
    let schema := (asStr (jLookup t2 "schema")).getD ""
    let name := (asStr (jLookup t2 "name")).getD ""
    .ok (insertKV t2 "name" (JSON.str (strToLower (schema ++ "." ++ name))))

-- --- main.go lines 234-292: the test branch of ManifestFromNodes ---

/-- Table-identifier resolution for a test node (main.go:252-261): the
last dependency for a relationships test, the first one otherwise; the
identifier stays empty when that entry is not a string. -/
def testTableId (testMeta : JObj) (nodesDep : List JSON) : String :=
  let testName := (asStr (jLookup testMeta "name")).getD ""
  if testName = "relationships" then
    match nodesDep.getLast? with
    | some (.str s) => s
    | _ => ""
  else
    match nodesDep.head? with
    | some (.str s) => s
    | _ => ""

/-- Column-name resolution for a test node (main.go:262-283): the
top-level "column_name" field, then kwargs "column_name", then kwargs
"arg"; each candidate counts only when it is a non-empty string. -/
def testColumnName (node testMeta : JObj) : String :=
  let c1 := match jLookup node "column_name" with
    | some (.str s) => s
    | _ => ""
  if c1 ≠ "" then c1
  else
    match asObj (jLookup testMeta "kwargs") with
    | some kwargs =>
      let c2 := match jLookup kwargs "column_name" with
        | some (.str s) => s
        | _ => ""
      if c2 ≠ "" then c2
      else
        match jLookup kwargs "arg" with
        | some (.str s) => s
        | _ => ""
    | none => ""

/-- main.go:288-291: append the raw node under (tableID, columnName),
creating the inner map when absent. -/
def addTest (tests : TestsIndex) (tableID columnName : String)
    (node : JSON) : TestsIndex :=
  match lookupKV tests tableID with
  | none => insertKV tests tableID [(columnName, [node])]
  | some colMap =>
    match lookupKV colMap columnName with
    | none => insertKV tests tableID (insertKV colMap columnName [node])
    | some l => insertKV tests tableID (insertKV colMap columnName (l ++ [node]))

/-- One iteration of the node loop of ManifestFromNodes
(main.go:215-293): the switch on resource_type.  Non-object values and
unrecognized resource types are skipped. -/
def addManifestNode (sep : Char) (m : Manifest) (v : JSON) : GoResult Manifest :=
  match v with
  | .obj node =>
    let resourceType := (asStr (jLookup node "resource_type")).getD ""
    if resourceType = "source" then
      (normalizeTable sep node).bind fun t =>
        let id := (asStr (jLookup node "unique_id")).getD ""
        .ok { m with Sources := insertKV m.Sources id t }
    else if resourceType = "model" then
      (normalizeTable sep node).bind fun t =>
        let id := (asStr (jLookup node "unique_id")).getD ""
        .ok { m with Models := insertKV m.Models id t }
    else if resourceType = "seed" then
      (normalizeTable sep node).bind fun t =>
        let id := (asStr (jLookup node "unique_id")).getD ""
        .ok { m with Seeds := insertKV m.Seeds id t }
    else if resourceType = "snapshot" then
      (normalizeTable sep node).bind fun t =>
        let id := (asStr (jLookup node "unique_id")).getD ""
        .ok { m with Snapshots := insertKV m.Snapshots id t }
    else if resourceType = "test" then
      if (jLookup node "test_metadata").isNone then .ok m
      else
        match asObj (jLookup node "depends_on") with
        | none => .ok m
        | some dependsRaw =>
          match asArr (jLookup dependsRaw "nodes") with
          | none => .ok m
          | some nodesDep =>
            if nodesDep.length = 0 then .ok m
            else
              match asObj (jLookup node "test_metadata") with
              | none => .ok m
              | some testMeta =>
                let tableID := testTableId testMeta nodesDep
                let columnName := testColumnName node testMeta
                if columnName = "" then .ok m
                else .ok { m with Tests := addTest m.Tests tableID (strToLower columnName) v }
    else .ok m
  | _ => .ok m

/-- main.go:208.  Fold of addManifestNode over the merged node map. -/
def ManifestFromNodes (sep : Char) (manifestNodes : List (String × JSON)) :
    GoResult Manifest :=
  manifestNodes.foldl
    (fun acc kv => acc.bind fun m => addManifestNode sep m kv.2)
    (.ok emptyManifest)

-- --- main.go lines 570-610: the annotation pass of loadFiles ---

/-- The partition chain of loadFiles (main.go:571-580): first hit among
Sources, Models, Seeds, Snapshots (no duplicate check here). -/
def manifestTableFor (m : Manifest) (tableID : String) : Option JObj :=
  match lookupKV m.Sources tableID with
  | some v => some v
  | none =>
    match lookupKV m.Models tableID with
    | some v => some v
    | none =>
      match lookupKV m.Seeds tableID with
      | some v => some v
      | none => lookupKV m.Snapshots tableID

/-- main.go:581-586: the manifest table columns object, when present. -/
def manifestColumnsFor (m : Manifest) (tableID : String) : Option JObj :=
  match manifestTableFor m tableID with
  | some mt => asObj (jLookup mt "columns")
  | none => none

/-- main.go:589-599: the description value for one column, through the
colInfo object (nil whenever any step of the chain fails). -/
def colDescOf (manifestColumns : Option JObj) (colName : String) : Option JSON :=
  match manifestColumns with
  | some mc =>
    match lookupKV mc colName with
    | some (.obj ci) => jLookup ci "description"
    | _ => none
  | none => none

/-- main.go:602-605: the test declarations recorded for one column
(empty when the table or the column has no entry in the index). -/
def testsOf (tableTests : Option (List (String × List JSON)))
    (colName : String) : List JSON :=
  match tableTests with
  | some tt => (lookupKV tt colName).getD []
  | none => []

/-- main.go:588-608: set the Doc and Test flags of one column. -/
def annotateColumn (manifestColumns : Option JObj)
    (tableTests : Option (List (String × List JSON)))
    (colName : String) (col : Column) : Column :=
  { col with Doc := IsValidDoc (colDescOf manifestColumns colName),
             Test := IsValidTest (testsOf tableTests colName) }

/-- main.go:570-609, one table: flags are written back onto the
existing columns of the table, keyed by the catalog column name. -/
def annotateTable (m : Manifest) (tableID : String) (table : Table) : Table :=
  let manifestColumns := manifestColumnsFor m tableID
  let tableTests := lookupKV m.Tests tableID
  { table with Columns :=
      table.Columns.map (fun p => (p.1, annotateColumn manifestColumns tableTests p.1 p.2)) }

/-- The whole annotation pass of loadFiles (main.go:570-610), the only
part of loadFiles that is not file I/O and JSON decoding. -/
def annotateCatalog (m : Manifest) (c : Catalog) : Catalog :=
  ⟨c.Tables.map (fun p => (p.1, annotateTable m p.1 p.2))⟩

-- --- main.go lines 341-394: computeJSONReport ---

/-- The switch of main.go:353-362: covered units for one column.  Any
coverage type other than the two defined constants leaves it at 0. -/
def colCoveredFor (covType : CoverageType) (col : Column) : Nat :=
  if covType = CoverageTypeDoc then (if col.Doc then 1 else 0)
  else if covType = CoverageTypeTest then (if col.Test then 1 else 0)
  else 0

/-- main.go:350-368: the report of one column (total is always 1). -/
def colReport (covType : CoverageType) (col : Column) : ColumnReport :=
  ⟨col.Name, colCoveredFor covType col, 1, goDivNat (colCoveredFor covType col) 1⟩

/-- main.go:346-378: the report of one table; the coverage division is
unguarded (float64(covered)/float64(total) even when total is 0). -/
def tableReportOf (covType : CoverageType) (table : Table) : TableReport :=
  let cols := table.Columns.map (fun p => colReport covType p.2)
  let tableCovered := (cols.map (fun c => c.Covered)).sum
  let tableTotal := (cols.map (fun c => c.Total)).sum
  ⟨table.Name, tableCovered, tableTotal, goDivNat tableCovered tableTotal, cols⟩

/-- main.go:341.  The global division, unlike the per-table one, is
guarded: zero total gives 0.0. -/
def computeJSONReport (catalog : Catalog) (covType : CoverageType) : JSONReport :=
  let tables := catalog.Tables.map (fun p => tableReportOf covType p.2)
  let globalCovered := (tables.map (fun t => t.Covered)).sum
  let globalTotal := (tables.map (fun t => t.Total)).sum
  let globalCoverage := if globalTotal > 0 then goDivNat globalCovered globalTotal
    else GoFloat.val 0
  ⟨covType, globalCovered, globalTotal, globalCoverage, tables⟩

-- --- main.go lines 623-643: the filtering stage of doCompute ---

/-- The catalog-selection stage of doCompute (main.go:628-633): apply
FilterTables only when a filter was requested, and fail when a
requested filter leaves no tables.  The surrounding file loading and
report writing are I/O and are not part of this embedding. -/
def doComputeCatalog (sep : Char) (catalog : Catalog)
    (modelPathFilter : List String) : GoResult Catalog :=
  if modelPathFilter.length > 0 then
    let c := catalog.FilterTables sep modelPathFilter
    if c.Tables.length = 0 then .err "aucune table après filtrage, vérifiez path_filter"
    else .ok c
  else .ok catalog

-- --- Helper lemmas about the association-list map operations ---

theorem lookupKV_insertKV {α : Type} (m : List (String × α)) (k : String)
    (v : α) (q : String) :
    lookupKV (insertKV m k v) q = if q = k then some v else lookupKV m q := by
  induction m with
  | nil =>
    by_cases hq : q = k
    · subst hq; simp [insertKV, lookupKV]
    · have h2 : ¬(k = q) := fun e => hq (e.symm)
      simp [insertKV, lookupKV, h2, hq]
  | cons p rest ih =>
    obtain ⟨a, b⟩ := p
    by_cases ha : a = k
    · subst ha
      by_cases hq : q = a
      · subst hq; simp [insertKV, lookupKV]
      · have h2 : ¬(a = q) := fun e => hq (e.symm)
        simp [insertKV, lookupKV, h2, hq]
    · by_cases hq : a = q
      · have h2 : ¬(q = k) := fun e => ha (hq ▸ e)
        simp [insertKV, lookupKV, ha, hq, h2]
      · simp [insertKV, lookupKV, ha, hq, ih]

theorem lookupKV_insertKV_isSome {α : Type} (m : List (String × α))
    (k : String) (v : α) (q : String) :
    (lookupKV (insertKV m k v) q).isSome = true ↔
      (q = k ∨ (lookupKV m q).isSome = true) := by
  rw [lookupKV_insertKV]
  by_cases hq : q = k
  · simp [hq]
  · simp [hq]

-- --- Claim theorems ---

/-- Claim C10 (confirmed): each of the three unchecked type assertions
on a "name" field aborts by panic on a well-typed input rather than
returning an error value: a catalog column node without "name" in
NewColumnFromNode, a manifest column node without "name" in
normalizeTable, and a resolved manifest table node without "name" in
NewTableFromNode. -/
theorem claim10_unchecked_name_assertions_panic :
    NewColumnFromNode [("type", JSON.str "int")] = .panicked ∧
    normalizeTable '/'
      [("columns", JSON.obj [("c", JSON.obj [("description", JSON.str "x")])])] =
      .panicked ∧
    NewTableFromNode [("unique_id", JSON.str "model.x")]
      { emptyManifest with
        Models := [("model.x", [("original_file_path", JSON.str "models/x.sql")])] } =
      .panicked :=
  ⟨rfl, rfl, rfl⟩

/-- Claim C1 (code bug): a zero-column table in the report of
computeJSONReport carries coverage NaN (the per-table division
float64(0)/float64(0) at main.go:376 is unguarded), not 0 as the claim
and the spec require; the global ratio of the very same run is guarded
and does yield 0. -/
theorem claim1_zero_column_table_coverage_is_nan :
    (computeJSONReport
        ⟨[("model.empty", ⟨"model.empty", "public.empty", "models/empty.sql", []⟩)]⟩
        CoverageTypeTest).Tables =
      [⟨"public.empty", 0, 0, GoFloat.nan, []⟩] ∧
    GoFloat.nan ≠ GoFloat.val 0 ∧
    (computeJSONReport
        ⟨[("model.empty", ⟨"model.empty", "public.empty", "models/empty.sql", []⟩)]⟩
        CoverageTypeTest).Coverage = GoFloat.val 0 :=
  ⟨rfl, by decide, rfl⟩

/-- Claim C4 (confirmed): when a unique_id occurs in more than one of
the four manifest partitions (so GetTable collects at least two
candidates, at most one per partition), resolving it fails with the
duplicate error instead of silently picking a partition, and building a
catalog table for that identifier fails as well (NewTableFromNode
rewraps the failure in its own error message). -/
theorem claim4_duplicate_unique_id_resolution_fails (m : Manifest) (id : String)
    (h : 2 ≤ (getTableCandidates m id).length) :
    m.GetTable id = .err ("unique_id " ++ id ++ " en double") ∧
    ∀ node : JObj, jLookup node "unique_id" = some (JSON.str id) →
      ∃ msg, NewTableFromNode node m = .err msg := by
  have hdup : m.GetTable id = .err ("unique_id " ++ id ++ " en double") := by
    unfold Manifest.GetTable
    cases hc : getTableCandidates m id with
    | nil => rw [hc] at h; simp at h
    | cons a rest =>
      cases rest with
      | nil => rw [hc] at h; simp at h
      | cons b rest2 => rfl
  refine ⟨hdup, ?_⟩
  intro node hn
  have hstr : asStr (jLookup node "unique_id") = some id := by rw [hn]; rfl
  refine ⟨"unique_id " ++ id ++ " non trouvé dans le manifest", ?_⟩
  simp only [NewTableFromNode, hstr, hdup]

/-- Witness for C4: the identifier "x" sits both in the Sources and in
the Models partition. -/
theorem claim4_duplicate_unique_id_resolution_fails_witness :
    Manifest.GetTable ⟨[("x", [])], [("x", [])], [], [], []⟩ "x" =
      .err ("unique_id " ++ "x" ++ " en double") :=
  (claim4_duplicate_unique_id_resolution_fails
    ⟨[("x", [])], [("x", [])], [], [], []⟩ "x" (by decide)).1

/-- Claim C7 (confirmed): in the filtering stage of doCompute, a
requested (non-empty) path filter that leaves zero tables is an error,
while an absent filter never raises that error, whatever the catalog
(including an empty one). -/
theorem claim7_post_filter_emptiness_is_error (sep : Char) (catalog : Catalog)
    (fs : List String) (hne : fs ≠ [])
    (hempty : (catalog.FilterTables sep fs).Tables = []) :
    doComputeCatalog sep catalog fs =
      .err "aucune table après filtrage, vérifiez path_filter" ∧
    ∀ c : Catalog, doComputeCatalog sep c [] = .ok c := by
  constructor
  · unfold doComputeCatalog
    rw [if_pos (List.length_pos.mpr hne)]
    simp [hempty]
  · intro c; rfl

/-- Witness for C7: a one-table catalog whose origin path matches
nothing in the filter list. -/
theorem claim7_post_filter_emptiness_is_error_witness :
    doComputeCatalog '/' ⟨[("id", ⟨"id", "public.t", "models/a.sql", []⟩)]⟩ ["seeds"] =
      .err "aucune table après filtrage, vérifiez path_filter" ∧
    doComputeCatalog '/' ⟨[]⟩ [] = .ok ⟨[]⟩ :=
  ⟨(claim7_post_filter_emptiness_is_error '/'
      ⟨[("id", ⟨"id", "public.t", "models/a.sql", []⟩)]⟩ ["seeds"]
      (by decide) (by decide)).1,
   (claim7_post_filter_emptiness_is_error '/'
      ⟨[("id", ⟨"id", "public.t", "models/a.sql", []⟩)]⟩ ["seeds"]
      (by decide) (by decide)).2 ⟨[]⟩⟩

-- --- Shared reduction lemma for qualifying test nodes ---

theorem addManifestNode_test_node (sep : Char) (m : Manifest)
    (node testMeta dependsRaw : JObj) (nodesDep : List JSON)
    (hrt : jLookup node "resource_type" = some (JSON.str "test"))
    (htm : jLookup node "test_metadata" = some (JSON.obj testMeta))
    (hdep : jLookup node "depends_on" = some (JSON.obj dependsRaw))
    (hnodes : jLookup dependsRaw "nodes" = some (JSON.arr nodesDep))
    (hne : nodesDep.length ≠ 0) :
    addManifestNode sep m (JSON.obj node) =
      (if testColumnName node testMeta = "" then .ok m
       else .ok { m with Tests := addTest m.Tests (testTableId testMeta nodesDep) (strToLower (testColumnName node testMeta)) (JSON.obj node) }) := by
  have h1 : ("test" : String) ≠ "source" := by decide
  have h2 : ("test" : String) ≠ "model" := by decide
  have h3 : ("test" : String) ≠ "seed" := by decide
  have h4 : ("test" : String) ≠ "snapshot" := by decide
  simp only [addManifestNode, hrt, htm, hdep, hnodes, asStr, asObj, asArr,
    Option.getD_some, Option.isNone_some, h1, h2, h3, h4, if_neg hne,
    if_false, if_neg, Bool.false_eq_true, ite_false]
  simp [h1, h2, h3, h4, hne]

/-- Claim C2 (confirmed): a qualifying column test (test_metadata block
present, non-empty depends_on.nodes, entries being identifiers) is
attributed to the last dependency when its declared name is
"relationships" and to the first dependency for every other name. -/
theorem claim2_relationship_test_attributed_to_last_dependency (sep : Char)
    (m : Manifest) (node testMeta dependsRaw : JObj) (deps : List String)
    (hrt : jLookup node "resource_type" = some (JSON.str "test"))
    (htm : jLookup node "test_metadata" = some (JSON.obj testMeta))
    (hdep : jLookup node "depends_on" = some (JSON.obj dependsRaw))
    (hnodes : jLookup dependsRaw "nodes" = some (JSON.arr (deps.map JSON.str)))
    (hne : deps ≠ [])
    (hcn : testColumnName node testMeta ≠ "") :
    addManifestNode sep m (JSON.obj node) =
      .ok { m with Tests := addTest m.Tests (if (asStr (jLookup testMeta "name")).getD "" = "relationships" then deps.getLastD "" else deps.headD "") (strToLower (testColumnName node testMeta)) (JSON.obj node) } := by
  have hlen : (deps.map JSON.str).length ≠ 0 := by
    simpa [List.length_eq_zero] using hne
  rw [addManifestNode_test_node sep m node testMeta dependsRaw _ hrt htm hdep
    hnodes hlen, if_neg hcn]
  have htid : testTableId testMeta (deps.map JSON.str) =
      (if (asStr (jLookup testMeta "name")).getD "" = "relationships"
       then deps.getLastD "" else deps.headD "") := by
    simp only [testTableId]
    by_cases hname : (asStr (jLookup testMeta "name")).getD "" = "relationships"
    · rw [if_pos hname, if_pos hname, List.getLast?_map]
      cases hl : deps.getLast? with
      | none => exact absurd (List.getLast?_eq_none_iff.mp hl) hne
      | some s => simp [List.getLastD_eq_getLast?, hl]
    · rw [if_neg hname, if_neg hname, List.head?_map]
      cases hl : deps.head? with
      | none => exact absurd (List.head?_eq_none_iff.mp hl) hne
      | some s => simp [List.headD_eq_head?, hl]
  rw [htid]

def claim2Meta : JObj := [("name", JSON.str "relationships")]

def claim2Dep : JObj :=
  [("nodes", JSON.arr ((["model.a", "model.b"] : List String).map JSON.str))]

def claim2Node : JObj :=
  [("resource_type", JSON.str "test"),
   ("test_metadata", JSON.obj claim2Meta),
   ("depends_on", JSON.obj claim2Dep),
   ("column_name", JSON.str "User_ID")]

/-- Witness for C2: a relationships test depending on model.a then
model.b is attributed to model.b (the last dependency). -/
theorem claim2_relationship_test_attributed_to_last_dependency_witness :
    addManifestNode '/' emptyManifest (JSON.obj claim2Node) =
      .ok { emptyManifest with Tests := addTest emptyManifest.Tests (if (asStr (jLookup claim2Meta "name")).getD "" = "relationships" then (["model.a", "model.b"] : List String).getLastD "" else (["model.a", "model.b"] : List String).headD "") (strToLower (testColumnName claim2Node claim2Meta)) (JSON.obj claim2Node) } :=
  claim2_relationship_test_attributed_to_last_dependency '/' emptyManifest
    claim2Node claim2Meta claim2Dep ["model.a", "model.b"]
    rfl rfl rfl rfl (by decide) (by decide)

/-- Resolution order for the target column, written after the words of
the claim (spec section 4.2): try the top-level column_name, then
test_metadata.kwargs.column_name, then test_metadata.kwargs.arg, and
take the first candidate that is a non-empty string. -/
def specResolvedColumn (node testMeta : JObj) : String :=
  let kwargs := (asObj (jLookup testMeta "kwargs")).getD []
  let c1 := match jLookup node "column_name" with
    | some (.str s) => s
    | _ => ""
  let c2 := match jLookup kwargs "column_name" with
    | some (.str s) => s
    | _ => ""
  let c3 := match jLookup kwargs "arg" with
    | some (.str s) => s
    | _ => ""
  if c1 ≠ "" then c1 else if c2 ≠ "" then c2 else c3

/-- Claim C3 (confirmed): the column of a qualifying test node is the
first non-empty candidate among the top-level column_name, kwargs
column_name and kwargs arg; when all three are empty or absent the
declaration is discarded (the manifest is returned unchanged, so no
table's test index grows), otherwise the node is recorded under the
lowercased resolved column. -/
theorem claim3_column_resolution_priority (sep : Char) (m : Manifest)
    (node testMeta dependsRaw : JObj) (nodesDep : List JSON)
    (hrt : jLookup node "resource_type" = some (JSON.str "test"))
    (htm : jLookup node "test_metadata" = some (JSON.obj testMeta))
    (hdep : jLookup node "depends_on" = some (JSON.obj dependsRaw))
    (hnodes : jLookup dependsRaw "nodes" = some (JSON.arr nodesDep))
    (hne : nodesDep.length ≠ 0) :
    testColumnName node testMeta = specResolvedColumn node testMeta ∧
    (testColumnName node testMeta = "" →
      addManifestNode sep m (JSON.obj node) = .ok m) ∧
    (testColumnName node testMeta ≠ "" →
      addManifestNode sep m (JSON.obj node) =
        .ok { m with Tests := addTest m.Tests (testTableId testMeta nodesDep) (strToLower (testColumnName node testMeta)) (JSON.obj node) }) := by
  refine ⟨?_, ?_, ?_⟩
  · simp only [testColumnName, specResolvedColumn]
    cases hkw : asObj (jLookup testMeta "kwargs") with
    | some kwargs => simp only [hkw, Option.getD_some]
    | none => simp only [hkw, Option.getD_none]; rfl
  · intro hz
    rw [addManifestNode_test_node sep m node testMeta dependsRaw nodesDep
      hrt htm hdep hnodes hne, if_pos hz]
  · intro hnz
    rw [addManifestNode_test_node sep m node testMeta dependsRaw nodesDep
      hrt htm hdep hnodes hne, if_neg hnz]

def claim3Meta : JObj :=
  [("name", JSON.str "not_null"),
   ("kwargs", JSON.obj [("arg", JSON.str "user_id")])]

def claim3Node : JObj :=
  [("resource_type", JSON.str "test"),
   ("test_metadata", JSON.obj claim3Meta),
   ("depends_on", JSON.obj [("nodes", JSON.arr [JSON.str "model.a"])])]

/-- Witness for C3: a test node without a top-level column_name and
without kwargs.column_name resolves its column through kwargs.arg, and
the node is recorded under that column. -/
theorem claim3_column_resolution_priority_witness :
    testColumnName claim3Node claim3Meta = specResolvedColumn claim3Node claim3Meta ∧
    addManifestNode '/' emptyManifest (JSON.obj claim3Node) =
      .ok { emptyManifest with Tests := addTest emptyManifest.Tests (testTableId claim3Meta [JSON.str "model.a"]) (strToLower (testColumnName claim3Node claim3Meta)) (JSON.obj claim3Node) } :=
  ⟨(claim3_column_resolution_priority '/' emptyManifest claim3Node claim3Meta
      [("nodes", JSON.arr [JSON.str "model.a"])] [JSON.str "model.a"]
      rfl rfl rfl rfl (by decide)).1,
   (claim3_column_resolution_priority '/' emptyManifest claim3Node claim3Meta
      [("nodes", JSON.arr [JSON.str "model.a"])] [JSON.str "model.a"]
      rfl rfl rfl rfl (by decide)).2.2 (by decide)⟩

/-- Claim C6 (confirmed): FilterTables keeps exactly the tables whose
slash-normalized origin path starts with some slash-normalized filter
prefix; which tables are kept does not depend on the order of the
prefixes (the whole result is even equal under permutation).  The
embedding of FilterTables is a pure function building a fresh table
list, mirroring the Go code, which only writes into a freshly made map
and never into the input catalog. -/
theorem claim6_filter_tables_prefix_semantics (sep : Char) (c : Catalog)
    (fs : List String) :
    (∀ id t, (id, t) ∈ (c.FilterTables sep fs).Tables ↔
      ((id, t) ∈ c.Tables ∧ ∃ f ∈ fs,
        strHasPrefix (toSlash sep f) (toSlash sep t.OriginalFilePath) = true)) ∧
    (∀ fs2, fs.Perm fs2 → c.FilterTables sep fs = c.FilterTables sep fs2) := by
  constructor
  · intro id t
    simp [Catalog.FilterTables, List.mem_filter, List.any_eq_true]
  · intro fs2 hp
    unfold Catalog.FilterTables
    have he : ∀ p : String × Table, p ∈ c.Tables →
        (fs.any (fun filt => strHasPrefix (toSlash sep filt) (toSlash sep p.2.OriginalFilePath))) =
          (fs2.any (fun filt => strHasPrefix (toSlash sep filt) (toSlash sep p.2.OriginalFilePath))) := by
      intro p _
      rw [Bool.eq_iff_iff, List.any_eq_true, List.any_eq_true]
      constructor
      · rintro ⟨f, hf, hpre⟩; exact ⟨f, hp.mem_iff.mp hf, hpre⟩
      · rintro ⟨f, hf, hpre⟩; exact ⟨f, hp.mem_iff.mpr hf, hpre⟩
    rw [List.filter_congr he]

/-- Witness for C6: with origin paths models/marts/a.sql and
models/staging/b.sql and the single prefix models/marts, exactly the
first table is kept, in either filter order. -/
theorem claim6_filter_tables_prefix_semantics_witness :
    (("m.a", (⟨"m.a", "public.a", "models/marts/a.sql", []⟩ : Table)) ∈
      (Catalog.FilterTables '/'
        ⟨[("m.a", ⟨"m.a", "public.a", "models/marts/a.sql", []⟩),
          ("m.b", ⟨"m.b", "public.b", "models/staging/b.sql", []⟩)]⟩
        ["models/marts", "seeds"]).Tables ↔
      (("m.a", (⟨"m.a", "public.a", "models/marts/a.sql", []⟩ : Table)) ∈
        ([("m.a", ⟨"m.a", "public.a", "models/marts/a.sql", []⟩),
          ("m.b", ⟨"m.b", "public.b", "models/staging/b.sql", []⟩)] :
          List (String × Table)) ∧
       ∃ f ∈ ["models/marts", "seeds"],
         strHasPrefix (toSlash '/' f) (toSlash '/' "models/marts/a.sql") = true)) ∧
    Catalog.FilterTables '/'
        ⟨[("m.a", ⟨"m.a", "public.a", "models/marts/a.sql", []⟩),
          ("m.b", ⟨"m.b", "public.b", "models/staging/b.sql", []⟩)]⟩
        ["models/marts", "seeds"] =
      Catalog.FilterTables '/'
        ⟨[("m.a", ⟨"m.a", "public.a", "models/marts/a.sql", []⟩),
          ("m.b", ⟨"m.b", "public.b", "models/staging/b.sql", []⟩)]⟩
        ["seeds", "models/marts"] :=
  ⟨(claim6_filter_tables_prefix_semantics '/'
      ⟨[("m.a", ⟨"m.a", "public.a", "models/marts/a.sql", []⟩),
        ("m.b", ⟨"m.b", "public.b", "models/staging/b.sql", []⟩)]⟩
      ["models/marts", "seeds"]).1 "m.a"
      ⟨"m.a", "public.a", "models/marts/a.sql", []⟩,
   (claim6_filter_tables_prefix_semantics '/'
      ⟨[("m.a", ⟨"m.a", "public.a", "models/marts/a.sql", []⟩),
        ("m.b", ⟨"m.b", "public.b", "models/staging/b.sql", []⟩)]⟩
      ["models/marts", "seeds"]).2 ["seeds", "models/marts"]
      (List.Perm.swap "seeds" "models/marts" [])⟩

-- --- Helper lemmas for C5 ---

theorem NewTableFromNode_err_of_bad (node : JObj) (manifest : Manifest)
    (hbad : asStr (jLookup node "unique_id") = none ∨
      ∃ uid, asStr (jLookup node "unique_id") = some uid ∧
        getTableCandidates manifest uid = []) :
    ∃ msg, NewTableFromNode node manifest = .err msg := by
  rcases hbad with h | ⟨uid, hu, hc⟩
  · exact ⟨"unique_id absent ou invalide", by simp only [NewTableFromNode, h]⟩
  · refine ⟨"unique_id " ++ uid ++ " non trouvé dans le manifest", ?_⟩
    have hg : manifest.GetTable uid = .err ("table " ++ uid ++ " non trouvée") := by
      unfold Manifest.GetTable; rw [hc]
    simp only [NewTableFromNode, hu, hg]

theorem catalogGo_err_of_bad (manifest : Manifest) (l : List JSON) :
    ∀ acc : List (String × Table),
    (∀ node : JObj, JSON.obj node ∈ l →
      NewTableFromNode node manifest ≠ .panicked) →
    (∃ node : JObj, JSON.obj node ∈ l ∧
      (asStr (jLookup node "unique_id") = none ∨
        ∃ uid, asStr (jLookup node "unique_id") = some uid ∧
          getTableCandidates manifest uid = [])) →
    ∃ msg, catalogGo manifest l acc = .err msg := by
  induction l with
  | nil =>
    intro acc hnp hbad
    rcases hbad with ⟨node, hmem, _⟩
    cases hmem
  | cons n rest ih =>
    intro acc hnp hbad
    cases n with
    | obj nodeh =>
      cases hres : NewTableFromNode nodeh manifest with
      | err e => exact ⟨e, by simp [catalogGo, hres]⟩
      | panicked =>
        exact absurd hres (hnp nodeh (List.mem_cons_self _ _))
      | ok table =>
        rcases hbad with ⟨node, hmem, hb⟩
        rcases List.mem_cons.mp hmem with he | hmemrest
        · injection he with he2
          subst he2
          rcases NewTableFromNode_err_of_bad node manifest hb with ⟨msg, hm⟩
          rw [hres] at hm
          cases hm
        · have hrec := ih (insertKV acc table.UniqueID table)
            (fun nd hmem2 => hnp nd (List.mem_cons_of_mem _ hmem2))
            ⟨node, hmemrest, hb⟩
          rcases hrec with ⟨msg, hm⟩
          exact ⟨msg, by simp [catalogGo, hres, hm]⟩
    | null =>
      rcases hbad with ⟨node, hmem, hb⟩
      rcases List.mem_cons.mp hmem with he | hmemrest
      · exact JSON.noConfusion he
      · have hrec := ih acc (fun nd hmem2 => hnp nd (List.mem_cons_of_mem _ hmem2))
          ⟨node, hmemrest, hb⟩
        rcases hrec with ⟨msg, hm⟩
        exact ⟨msg, by simp [catalogGo, hm]⟩
    | bool b =>
      rcases hbad with ⟨node, hmem, hb⟩
      rcases List.mem_cons.mp hmem with he | hmemrest
      · exact JSON.noConfusion he
      · have hrec := ih acc (fun nd hmem2 => hnp nd (List.mem_cons_of_mem _ hmem2))
          ⟨node, hmemrest, hb⟩
        rcases hrec with ⟨msg, hm⟩
        exact ⟨msg, by simp [catalogGo, hm]⟩
    | num x =>
      rcases hbad with ⟨node, hmem, hb⟩
      rcases List.mem_cons.mp hmem with he | hmemrest
      · exact JSON.noConfusion he
      · have hrec := ih acc (fun nd hmem2 => hnp nd (List.mem_cons_of_mem _ hmem2))
          ⟨node, hmemrest, hb⟩
        rcases hrec with ⟨msg, hm⟩
        exact ⟨msg, by simp [catalogGo, hm]⟩
    | str s =>
      rcases hbad with ⟨node, hmem, hb⟩
      rcases List.mem_cons.mp hmem with he | hmemrest
      · exact JSON.noConfusion he
      · have hrec := ih acc (fun nd hmem2 => hnp nd (List.mem_cons_of_mem _ hmem2))
          ⟨node, hmemrest, hb⟩
        rcases hrec with ⟨msg, hm⟩
        exact ⟨msg, by simp [catalogGo, hm]⟩
    | arr xs =>
      rcases hbad with ⟨node, hmem, hb⟩
      rcases List.mem_cons.mp hmem with he | hmemrest
      · exact JSON.noConfusion he
      · have hrec := ih acc (fun nd hmem2 => hnp nd (List.mem_cons_of_mem _ hmem2))
          ⟨node, hmemrest, hb⟩
        rcases hrec with ⟨msg, hm⟩
        exact ⟨msg, by simp [catalogGo, hm]⟩

/-- Claim C5 (confirmed): when some object node of the list has a
missing or non-string unique_id, or a unique_id with no counterpart in
the manifest index, CatalogFromNodes returns an error — never a partial
catalog with the well-formed nodes (an `.err` result carries no catalog
at all; Go pairs it with the empty zero value `Catalog{}`).  The
hypothesis hnp rules out the runtime panics treated separately in C10,
which abort instead of returning. -/
theorem claim5_no_partial_catalog_on_bad_node (nodes : List JSON)
    (manifest : Manifest)
    (hnp : ∀ node : JObj, JSON.obj node ∈ nodes →
      NewTableFromNode node manifest ≠ .panicked)
    (hbad : ∃ node : JObj, JSON.obj node ∈ nodes ∧
      (asStr (jLookup node "unique_id") = none ∨
        ∃ uid, asStr (jLookup node "unique_id") = some uid ∧
          getTableCandidates manifest uid = [])) :
    ∃ msg, CatalogFromNodes nodes manifest = .err msg :=
  catalogGo_err_of_bad manifest nodes [] hnp hbad

/-- Witness for C5: one well-formed node plus one node whose unique_id
has no manifest counterpart; the whole build errors out. -/
theorem claim5_no_partial_catalog_on_bad_node_witness :
    ∃ msg, CatalogFromNodes
      [JSON.obj [("unique_id", JSON.str "model.known")],
       JSON.obj [("unique_id", JSON.str "model.ghost")]]
      { emptyManifest with
        Models := [("model.known", [("name", JSON.str "Public.Known")])] } =
      .err msg :=
  claim5_no_partial_catalog_on_bad_node _ _
    (by
      intro node hmem
      rcases List.mem_cons.mp hmem with he | hmem2
      · injection he with he2
        subst he2
        decide
      · rcases List.mem_cons.mp hmem2 with he | hmem3
        · injection he with he2
          subst he2
          decide
        · cases hmem3)
    ⟨[("unique_id", JSON.str "model.ghost")],
      by
        refine ⟨?_, Or.inr ⟨"model.ghost", rfl, rfl⟩⟩
        exact List.mem_cons_of_mem _ (List.mem_cons_self _ _)⟩

-- --- Helper lemmas for C8 ---

theorem IsValidDoc_eq_true_iff (d : Option JSON) :
    IsValidDoc d = true ↔ ∃ s, d = some (JSON.str s) ∧ s ≠ "" := by
  cases d with
  | none => simp [IsValidDoc]
  | some j => cases j <;> simp [IsValidDoc]

theorem IsValidTest_eq_true_iff (l : List JSON) :
    IsValidTest l = true ↔ l ≠ [] := by
  simp [IsValidTest, List.length_pos]

theorem ite_one_zero_eq_one_iff (b : Bool) :
    ((if b then (1 : Nat) else 0) = 1) ↔ b = true := by
  cases b <;> simp

/-- Claim C8 (confirmed): every column of every table of a reconciled
(annotated) catalog contributes exactly one unit to the total; it
counts as covered for kind doc exactly when the metadata description
for its (table, column) key is a non-empty string, and for kind test
exactly when at least one declaration sits in the test index for that
key — however many there are. -/
theorem claim8_per_column_unit_and_coverage (m : Manifest) (c : Catalog)
    (id : String) (t : Table) (colName : String) (col : Column)
    (ht : (id, t) ∈ (annotateCatalog m c).Tables)
    (hc : (colName, col) ∈ t.Columns) :
    (colReport CoverageTypeDoc col).Total = 1 ∧
    (colReport CoverageTypeTest col).Total = 1 ∧
    ((colReport CoverageTypeDoc col).Covered = 1 ↔
      ∃ s, colDescOf (manifestColumnsFor m id) colName = some (JSON.str s) ∧ s ≠ "") ∧
    ((colReport CoverageTypeTest col).Covered = 1 ↔
      testsOf (lookupKV m.Tests id) colName ≠ []) := by
  rcases List.mem_map.mp ht with ⟨p, hp, hpe⟩
  have hid : p.1 = id := congrArg Prod.fst hpe
  have htt : annotateTable m p.1 p.2 = t := congrArg Prod.snd hpe
  subst hid
  subst htt
  simp only [annotateTable] at hc
  rcases List.mem_map.mp hc with ⟨q, hq, hqe⟩
  have hcn : q.1 = colName := congrArg Prod.fst hqe
  have hcol : annotateColumn (manifestColumnsFor m p.1) (lookupKV m.Tests p.1) q.1 q.2 = col :=
    congrArg Prod.snd hqe
  subst hcn
  subst hcol
  refine ⟨rfl, rfl, ?_, ?_⟩
  · have h1 : (colReport CoverageTypeDoc
        (annotateColumn (manifestColumnsFor m p.1) (lookupKV m.Tests p.1) q.1 q.2)).Covered =
        (if IsValidDoc (colDescOf (manifestColumnsFor m p.1) q.1) then (1 : Nat) else 0) := rfl
    rw [h1, ite_one_zero_eq_one_iff, IsValidDoc_eq_true_iff]
  · have h1 : (colReport CoverageTypeTest
        (annotateColumn (manifestColumnsFor m p.1) (lookupKV m.Tests p.1) q.1 q.2)).Covered =
        (if IsValidTest (testsOf (lookupKV m.Tests p.1) q.1) then (1 : Nat) else 0) := rfl
    rw [h1, ite_one_zero_eq_one_iff, IsValidTest_eq_true_iff]

def claim8M : Manifest :=
  { emptyManifest with
    Models := [("model.u",
      [("columns", JSON.obj
        [("id", JSON.obj [("name", JSON.str "id"), ("description", JSON.str "pk")]),
         ("email", JSON.obj [("name", JSON.str "email")])])])],
    Tests := [("model.u", [("email", [JSON.null])])] }

def claim8T : Table :=
  ⟨"model.u", "public.users", "models/u.sql",
   [("id", ⟨"id", false, false⟩), ("email", ⟨"email", false, false⟩)]⟩

def claim8Col : Column :=
  annotateColumn (manifestColumnsFor claim8M "model.u")
    (lookupKV claim8M.Tests "model.u") "id" ⟨"id", false, false⟩

/-- Witness for C8: the documented, untested column "id" of the
end-to-end scenario table. -/
theorem claim8_per_column_unit_and_coverage_witness :
    (colReport CoverageTypeDoc claim8Col).Total = 1 ∧
    (colReport CoverageTypeTest claim8Col).Total = 1 ∧
    ((colReport CoverageTypeDoc claim8Col).Covered = 1 ↔
      ∃ s, colDescOf (manifestColumnsFor claim8M "model.u") "id" = some (JSON.str s) ∧ s ≠ "") ∧
    ((colReport CoverageTypeTest claim8Col).Covered = 1 ↔
      testsOf (lookupKV claim8M.Tests "model.u") "id" ≠ []) :=
  claim8_per_column_unit_and_coverage claim8M
    ⟨[("model.u", claim8T)]⟩ "model.u"
    (annotateTable claim8M "model.u" claim8T) "id" claim8Col
    (by decide) (by decide)

-- --- Helper lemmas for C9 ---

theorem asStr_eq_some (x : Option JSON) (s : String) (h : asStr x = some s) :
    x = some (JSON.str s) := by
  cases x with
  | none => simp [asStr] at h
  | some j => cases j <;> simp_all [asStr]

theorem buildCols_ok_lookup (l : List (String × JSON)) :
    ∀ acc res, buildCols l acc = .ok res →
    ∀ k, ((lookupKV res k).isSome = true ↔
      ((lookupKV acc k).isSome = true ∨
        ∃ ck cv colNode s, (ck, cv) ∈ l ∧ cv = JSON.obj colNode ∧
          jLookup colNode "name" = some (JSON.str s) ∧ strToLower s = k)) := by
  induction l with
  | nil =>
    intro acc res h k
    injection h with h2
    subst h2
    simp
  | cons p rest ih =>
    intro acc res h k
    obtain ⟨ck0, cv0⟩ := p
    cases cv0 with
    | obj colNode =>
      cases hn : asStr (jLookup colNode "name") with
      | none => simp [buildCols, NewColumnFromNode, hn] at h
      | some s =>
        have hstep : buildCols ((ck0, JSON.obj colNode) :: rest) acc =
            buildCols rest (insertKV acc (strToLower s) ⟨strToLower s, false, false⟩) := by
          simp [buildCols, NewColumnFromNode, hn]
        rw [hstep] at h
        rw [ih _ _ h k, lookupKV_insertKV_isSome]
        constructor
        · rintro ((hk | hacc) | ⟨ck, cv, cn2, s2, hmem, hcv, hn2, hk2⟩)
          · exact Or.inr ⟨ck0, JSON.obj colNode, colNode, s, List.mem_cons_self _ _,
              rfl, asStr_eq_some _ _ hn, hk.symm⟩
          · exact Or.inl hacc
          · exact Or.inr ⟨ck, cv, cn2, s2, List.mem_cons_of_mem _ hmem, hcv, hn2, hk2⟩
        · rintro (hacc | ⟨ck, cv, cn2, s2, hmem, hcv, hn2, hk2⟩)
          · exact Or.inl (Or.inr hacc)
          · rcases List.mem_cons.mp hmem with he | hmem2
            · have hcve : cv = JSON.obj colNode := congrArg Prod.snd he
              rw [hcve] at hcv
              injection hcv with hcn3
              subst hcn3
              rw [hn2] at hn
              have hs : s = s2 := by
                have : asStr (some (JSON.str s2)) = some s2 := rfl
                rw [this] at hn
                injection hn with h5
                exact h5.symm
              subst hs
              exact Or.inl (Or.inl hk2.symm)
            · exact Or.inr ⟨ck, cv, cn2, s2, hmem2, hcv, hn2, hk2⟩
    | null =>
      have hstep : buildCols ((ck0, JSON.null) :: rest) acc = buildCols rest acc := by
        simp [buildCols]
      rw [hstep] at h
      rw [ih _ _ h k]
      constructor
      · rintro (hacc | ⟨ck, cv, cn2, s2, hmem, hcv, hn2, hk2⟩)
        · exact Or.inl hacc
        · exact Or.inr ⟨ck, cv, cn2, s2, List.mem_cons_of_mem _ hmem, hcv, hn2, hk2⟩
      · rintro (hacc | ⟨ck, cv, cn2, s2, hmem, hcv, hn2, hk2⟩)
        · exact Or.inl hacc
        · rcases List.mem_cons.mp hmem with he | hmem2
          · have hcve : cv = JSON.null := congrArg Prod.snd he
            rw [hcve] at hcv
            exact JSON.noConfusion hcv
          · exact Or.inr ⟨ck, cv, cn2, s2, hmem2, hcv, hn2, hk2⟩
    | bool b =>
      have hstep : buildCols ((ck0, JSON.bool b) :: rest) acc = buildCols rest acc := by
        simp [buildCols]
      rw [hstep] at h
      rw [ih _ _ h k]
      constructor
      · rintro (hacc | ⟨ck, cv, cn2, s2, hmem, hcv, hn2, hk2⟩)
        · exact Or.inl hacc
        · exact Or.inr ⟨ck, cv, cn2, s2, List.mem_cons_of_mem _ hmem, hcv, hn2, hk2⟩
      · rintro (hacc | ⟨ck, cv, cn2, s2, hmem, hcv, hn2, hk2⟩)
        · exact Or.inl hacc
        · rcases List.mem_cons.mp hmem with he | hmem2
          · have hcve : cv = JSON.bool b := congrArg Prod.snd he
            rw [hcve] at hcv
            exact JSON.noConfusion hcv
          · exact Or.inr ⟨ck, cv, cn2, s2, hmem2, hcv, hn2, hk2⟩
    | num x =>
      have hstep : buildCols ((ck0, JSON.num x) :: rest) acc = buildCols rest acc := by
        simp [buildCols]
      rw [hstep] at h
      rw [ih _ _ h k]
      constructor
      · rintro (hacc | ⟨ck, cv, cn2, s2, hmem, hcv, hn2, hk2⟩)
        · exact Or.inl hacc
        · exact Or.inr ⟨ck, cv, cn2, s2, List.mem_cons_of_mem _ hmem, hcv, hn2, hk2⟩
      · rintro (hacc | ⟨ck, cv, cn2, s2, hmem, hcv, hn2, hk2⟩)
        · exact Or.inl hacc
        · rcases List.mem_cons.mp hmem with he | hmem2
          · have hcve : cv = JSON.num x := congrArg Prod.snd he
            rw [hcve] at hcv
            exact JSON.noConfusion hcv
          · exact Or.inr ⟨ck, cv, cn2, s2, hmem2, hcv, hn2, hk2⟩
    | str s0 =>
      have hstep : buildCols ((ck0, JSON.str s0) :: rest) acc = buildCols rest acc := by
        simp [buildCols]
      rw [hstep] at h
      rw [ih _ _ h k]
      constructor
      · rintro (hacc | ⟨ck, cv, cn2, s2, hmem, hcv, hn2, hk2⟩)
        · exact Or.inl hacc
        · exact Or.inr ⟨ck, cv, cn2, s2, List.mem_cons_of_mem _ hmem, hcv, hn2, hk2⟩
      · rintro (hacc | ⟨ck, cv, cn2, s2, hmem, hcv, hn2, hk2⟩)
        · exact Or.inl hacc
        · rcases List.mem_cons.mp hmem with he | hmem2
          · have hcve : cv = JSON.str s0 := congrArg Prod.snd he
            rw [hcve] at hcv
            exact JSON.noConfusion hcv
          · exact Or.inr ⟨ck, cv, cn2, s2, hmem2, hcv, hn2, hk2⟩
    | arr xs =>
      have hstep : buildCols ((ck0, JSON.arr xs) :: rest) acc = buildCols rest acc := by
        simp [buildCols]
      rw [hstep] at h
      rw [ih _ _ h k]
      constructor
      · rintro (hacc | ⟨ck, cv, cn2, s2, hmem, hcv, hn2, hk2⟩)
        · exact Or.inl hacc
        · exact Or.inr ⟨ck, cv, cn2, s2, List.mem_cons_of_mem _ hmem, hcv, hn2, hk2⟩
      · rintro (hacc | ⟨ck, cv, cn2, s2, hmem, hcv, hn2, hk2⟩)
        · exact Or.inl hacc
        · rcases List.mem_cons.mp hmem with he | hmem2
          · have hcve : cv = JSON.arr xs := congrArg Prod.snd he
            rw [hcve] at hcv
            exact JSON.noConfusion hcv
          · exact Or.inr ⟨ck, cv, cn2, s2, hmem2, hcv, hn2, hk2⟩

theorem NewTableFromNode_ok_columns (node : JObj) (manifest : Manifest)
    (t : Table) (h : NewTableFromNode node manifest = .ok t) :
    (match asObj (jLookup node "columns") with
     | some columnsRaw => buildCols columnsRaw []
     | none => .ok []) = .ok t.Columns := by
  unfold NewTableFromNode at h
  cases h1 : asStr (jLookup node "unique_id") with
  | none => simp only [h1] at h; exact GoResult.noConfusion h
  | some uid =>
    simp only [h1] at h
    cases h2 : manifest.GetTable uid with
    | err e => simp only [h2] at h; exact GoResult.noConfusion h
    | panicked => simp only [h2] at h; exact GoResult.noConfusion h
    | ok mt =>
      simp only [h2] at h
      cases h3 : (match asObj (jLookup node "columns") with
        | some cr => buildCols cr []
        | none => .ok []) with
      | err e => simp only [h3, GoResult.bind] at h; exact GoResult.noConfusion h
      | panicked => simp only [h3, GoResult.bind] at h; exact GoResult.noConfusion h
      | ok cols =>
        simp only [h3, GoResult.bind] at h
        cases h4 : asStr (jLookup mt "name") with
        | none => simp only [h4] at h; exact GoResult.noConfusion h
        | some nm =>
          simp only [h4, GoResult.ok.injEq] at h
          rw [← h]

/-- Claim C9 (confirmed): a catalog table has exactly the lowercased
column names declared by its catalog (physical-schema) node — a key is
present in the built table iff some column object of the node carries
that name (lowercased) — and the metadata annotation pass rewrites
flags in place: the listed column keys of every table are unchanged, so
no metadata-only column is ever added and no catalog column removed. -/
theorem claim9_column_universe_from_catalog (node : JObj) (manifest : Manifest)
    (t : Table) (h : NewTableFromNode node manifest = .ok t) :
    (∀ k, (lookupKV t.Columns k).isSome = true ↔
      ∃ ck cv colNode s, (ck, cv) ∈ (asObj (jLookup node "columns")).getD [] ∧
        cv = JSON.obj colNode ∧ jLookup colNode "name" = some (JSON.str s) ∧
        strToLower s = k) ∧
    (∀ m2 c2, (annotateCatalog m2 c2).Tables.map (fun p => (p.1, p.2.Columns.map Prod.fst)) =
      c2.Tables.map (fun p => (p.1, p.2.Columns.map Prod.fst))) := by
  constructor
  · intro k
    have hcols := NewTableFromNode_ok_columns node manifest t h
    cases ho : asObj (jLookup node "columns") with
    | some columnsRaw =>
      rw [ho] at hcols
      have := buildCols_ok_lookup columnsRaw [] t.Columns hcols k
      rw [this]
      simp [lookupKV, ho]
    | none =>
      rw [ho] at hcols
      injection hcols with h2
      rw [← h2]
      simp [lookupKV, ho]
  · intro m2 c2
    unfold annotateCatalog annotateTable
    rw [List.map_map]
    apply List.map_congr_left
    intro p _
    simp [Function.comp, List.map_map]

def claim9Node : JObj :=
  [("unique_id", JSON.str "model.u"),
   ("columns", JSON.obj
     [("ID", JSON.obj [("name", JSON.str "ID")]),
      ("email", JSON.obj [("name", JSON.str "email")])])]

def claim9M : Manifest :=
  { emptyManifest with
    Models := [("model.u", [("name", JSON.str "Public.Users")])] }

def claim9T : Table :=
  ⟨"model.u", "public.users", "",
   [("id", ⟨"id", false, false⟩), ("email", ⟨"email", false, false⟩)]⟩

/-- Witness for C9: a catalog node declaring columns ID and email
builds a table whose keys are exactly the lowercased names id and
email, and annotation keeps table column keys unchanged. -/
theorem claim9_column_universe_from_catalog_witness :
    ((lookupKV claim9T.Columns "id").isSome = true ↔
      ∃ ck cv colNode s, (ck, cv) ∈ (asObj (jLookup claim9Node "columns")).getD [] ∧
        cv = JSON.obj colNode ∧ jLookup colNode "name" = some (JSON.str s) ∧
        strToLower s = "id") ∧
    (annotateCatalog claim9M ⟨[("model.u", claim9T)]⟩).Tables.map
        (fun p => (p.1, p.2.Columns.map Prod.fst)) =
      (⟨[("model.u", claim9T)]⟩ : Catalog).Tables.map
        (fun p => (p.1, p.2.Columns.map Prod.fst)) :=
  ⟨((claim9_column_universe_from_catalog claim9Node claim9M claim9T (by decide)).1 "id"),
   ((claim9_column_universe_from_catalog claim9Node claim9M claim9T (by decide)).2
     claim9M ⟨[("model.u", claim9T)]⟩)⟩
